import Mathlib

/-!
Verification of the huohuaai VSCode extension's completion-request pipeline:
a shallow embedding of `src/api/index.ts` (`getCompletion`, `buildApiHandler`)
and `src/services/completion/AICompletionProvider.ts`
(`provideInlineCompletionItems`, `shouldTriggerCompletion`, `isInComment`,
`isInString`, `getContextRange`), with theorems about trigger gating,
caching, prompt rendering, streamed-response extraction and error isolation.

Strings are modelled as `List Char`; JavaScript `string.substring` becomes
`List.take`/`List.drop` (both clamp out-of-range indices exactly as
`substring` does for in-range-or-beyond arguments used here); timestamps
(`Date.now()`) are modelled as `Int` values supplied by the environment.
-/

namespace HuohuaExt

/-- JavaScript `String.prototype.trim` whitespace test, restricted to the
ASCII whitespace characters that can occur in the modelled documents. -/
def isWs (c : Char) : Bool :=
  c == ' ' || c == '\t' || c == '\n' || c == '\r'

/-- JavaScript `s.trim()`: remove leading and trailing whitespace. -/
def trimChars (l : List Char) : List Char :=
  ((l.dropWhile isWs).reverse.dropWhile isWs).reverse

/-- Index of the first occurrence of `pat` in a list (`String.match` /
`indexOf` search): `some i` for the least `i` with `pat` a prefix of
`l.drop i`, else `none`. -/
def findFrom (pat : List Char) : List Char → Option Nat
  | [] => if pat.isPrefixOf [] then some 0 else none
  | c :: rest =>
    if pat.isPrefixOf (c :: rest) then some 0
    else (findFrom pat rest).map (· + 1)

/-- JavaScript `s.lastIndexOf(pat)`: the largest index at which `pat`
occurs, or `-1` when it does not occur. -/
def lastIdx (pat s : List Char) : Int :=
  (List.range (s.length + 1)).foldl
    (fun acc i => if pat.isPrefixOf (s.drop i) then max acc (i : Int) else acc) (-1)

/-! ## Streamed-response extraction (src/api/index.ts lines 154-156)

The source uses the regular expression
`/<COMPLETION>([\s\S]*?)<\/COMPLETION>/` and takes capture group 1, or the
empty string when there is no match.  With a lazy body, a match starts at
the first occurrence of the opening tag that is followed by a closing tag,
and its body ends at the first closing tag after that opening tag; if the
first opening tag has no closing tag after it then no later one has either,
so the regex fails exactly when the two-scan below fails. -/

def openTagL : List Char := "<COMPLETION>".toList

def closeTagL : List Char := "</COMPLETION>".toList

/-- The extraction step of `getCompletion`: the text between the first
`<COMPLETION>` and the first subsequent `</COMPLETION>`, or `[]` when there
is no such pair. -/
def extractCompletion (s : List Char) : List Char :=
  match findFrom openTagL s with
  | none => []
  | some i =>
    let after := s.drop (i + openTagL.length)
    match findFrom closeTagL after with
    | none => []
    | some j => after.take j

/-! ## Prompt rendering (src/api/index.ts lines 32-41 and 123-125)

`SYSTEM_MSG` is the fixed hole-filler instruction template, transcribed from
the source; braces are written with the escapes `\x7b`/`\x7d` and
apostrophes with `\x27`. -/

def SYSTEM_MSG : String :=
  "You are a HOLE FILLER. You are provided with a file containing holes, formatted as \x27\x7b\x7bHOLE_NAME\x7d\x7d\x27. Your TASK is to complete with a string to replace this hole with, inside a <COMPLETION/> XML tag, including context-aware indentation, if needed.  All completions MUST be truthful, accurate, well-written and correct.\n\n"
  ++ "## EXAMPLE QUERY:\n\n<QUERY>\nfunction sum_evens(lim) \x7b\n  var sum = 0;\n  for (var i = 0; i < lim; ++i) \x7b\n    \x7b\x7bFILL_HERE\x7d\x7d\n  \x7d\n  return sum;\n\x7d\n</QUERY>\n\nTASK: Fill the \x7b\x7bFILL_HERE\x7d\x7d hole.\n\n"
  ++ "## CORRECT COMPLETION\n\n<COMPLETION>if (i % 2 === 0) \x7b\n      sum += i;\n    \x7d</COMPLETION>\n\n"
  ++ "## EXAMPLE QUERY:\n\n<QUERY>\ndef sum_list(lst):\n  total = 0\n  for x in lst:\n  \x7b\x7bFILL_HERE\x7d\x7d\n  return total\n\nprint sum_list([1, 2, 3])\n</QUERY>\n\n## CORRECT COMPLETION:\n\n<COMPLETION>  total += x</COMPLETION>\n\n"
  ++ "## EXAMPLE QUERY:\n\n<QUERY>\n// data Tree a = Node (Tree a) (Tree a) | Leaf a\n\n// sum :: Tree Int -> Int\n// sum (Node lft rgt) = sum lft + sum rgt\n// sum (Leaf val)     = val\n\n// convert to TypeScript:\n\x7b\x7bFILL_HERE\x7d\x7d\n</QUERY>\n\n"
  ++ "## CORRECT COMPLETION:\n\n<COMPLETION>type Tree<T>\n  = \x7b$:\"Node\", lft: Tree<T>, rgt: Tree<T>\x7d\n  | \x7b$:\"Leaf\", val: T\x7d;\n\nfunction sum(tree: Tree<number>): number \x7b\n  switch (tree.$) \x7b\n    case \"Node\":\n      return sum(tree.lft) + sum(tree.rgt);\n    case \"Leaf\":\n      return tree.val;\n  \x7d\n\x7d</COMPLETION>\n\n"
  ++ "## EXAMPLE QUERY:\n\nThe 5th \x7b\x7bFILL_HERE\x7d\x7d is Jupiter.\n\n## CORRECT COMPLETION:\n\n<COMPLETION>planet from the Sun</COMPLETION>\n\n"
  ++ "## EXAMPLE QUERY:\n\nfunction hypothenuse(a, b) \x7b\n  return Math.sqrt(\x7b\x7bFILL_HERE\x7d\x7db ** 2);\n\x7d\n\n## CORRECT COMPLETION:\n\n<COMPLETION>a ** 2 + </COMPLETION>"

/-- `"\n\n<QUERY>\n"`, the text between the template and the prefix. -/
def queryOpenStr : String := "\n\n<QUERY>\n"

/-- The hole sentinel, `{{FILL_HERE}}` (braces escaped). -/
def sentinelStr : String := "\x7b\x7bFILL_HERE\x7d\x7d"

/-- The closing instruction after the suffix. -/
def closingStr : String :=
  "\n</QUERY>\nTASK: Fill the \x7b\x7bFILL_HERE\x7d\x7d hole. Answer only with the CORRECT completion, and NOTHING ELSE. Do it now.\n<COMPLETION>"

/-- `getCompletion` lines 33-38 and 123-125: split `options.prompt` at its
last newline (`lastIndexOf` is `-1` when absent, so the whole prompt is the
last line), cut the last line at `options.cursorPosition`, and render
`SYSTEM_MSG` + query block + prefix + sentinel + suffix + closing
instruction.  Pure string construction. -/
def renderFullPrompt (prompt : List Char) (cursor : Nat) : List Char :=
  let i := lastIdx (['\n']) prompt
  let contextPre := prompt.take (i + 1).toNat
  let lastLine := prompt.drop (i + 1).toNat
  let pre := contextPre ++ lastLine.take cursor
  let suf := lastLine.drop cursor
  SYSTEM_MSG.toList ++ queryOpenStr.toList ++ pre ++ sentinelStr.toList
    ++ suf ++ closingStr.toList

/-! ## Backend client (src/api/index.ts lines 127-197) -/

/-- The fields of `ApiConfiguration` that this repository's code reads. -/
structure ApiConfiguration where
  apiProvider : String
  apiModelId : String
  apiKey : String
deriving DecidableEq

/-- The configuration hard-coded inside `getCompletion` (lines 127-131). -/
def hardcodedConfiguration : ApiConfiguration where
  apiProvider := "anthropic"
  apiModelId := "claude-3-5-sonnet-20240620"
  apiKey := "sk-ant-REDACTED"

/-- The provider handlers `buildApiHandler` can construct. -/
inductive ApiHandlerKind where
  | anthropic | openrouter | bedrock | vertex | openai
  | ollama | lmstudio | gemini | openaiNative | deepseek
deriving DecidableEq

/-- `buildApiHandler` (lines 171-197): dispatch on `apiProvider`, with
`AnthropicHandler` as the default branch. -/
def buildApiHandler (c : ApiConfiguration) : ApiHandlerKind :=
  match c.apiProvider with
  | "anthropic" => .anthropic
  | "openrouter" => .openrouter
  | "bedrock" => .bedrock
  | "vertex" => .vertex
  | "openai" => .openai
  | "ollama" => .ollama
  | "lmstudio" => .lmstudio
  | "gemini" => .gemini
  | "openai-native" => .openaiNative
  | "deepseek" => .deepseek
  | _ => .anthropic

/-- `CompletionResult` (lines 27-30). -/
structure CompletionResult where
  text : List Char
  detail : Option String
deriving DecidableEq

/-- `CompletionOptions` (lines 20-25) plus the `configuration` field that
the caller in `AICompletionProvider.ts` line 95 passes along.  The float
`temperature` (0.2 at the call site) is modelled as the exact fraction
`(2, 10)`; no arithmetic is ever performed on it. -/
structure CompletionOptions where
  prompt : List Char
  maxTokens : Nat
  temperature : Nat × Nat
  cursorPosition : Nat
  configuration : ApiConfiguration
deriving DecidableEq

/-- A chunk of the backend's streamed response (lines 146-152): an object
with a `text` field, a raw string, or some other event that is ignored. -/
inductive Chunk where
  | text (s : List Char)
  | raw (s : List Char)
  | event
deriving DecidableEq

/-- The accumulation loop (lines 144-152): concatenate the text-bearing
chunks in delivery order. -/
def accumulate : List Chunk → List Char
  | [] => []
  | .text s :: rest => s ++ accumulate rest
  | .raw s :: rest => s ++ accumulate rest
  | .event :: rest => accumulate rest

/-- The backend round trip as observed by `getCompletion`: either the
stream is drained to a finite chunk list, or an error is raised while
invoking the backend or draining the stream (the `catch` at line 162). -/
inductive StreamOut where
  | ok (chunks : List Chunk)
  | err
deriving DecidableEq

/-- `getCompletion` (lines 32-169), with all observables exposed: the
result list, which handler was built (always from the hard-coded
configuration — the caller-supplied `options.configuration` is never read),
and the full prompt sent as the single user message (the system prompt sent
with it is the fixed string `"You are a HOLE FILLER."`). -/
def getCompletionRun (options : CompletionOptions) (stream : StreamOut) :
    List CompletionResult × ApiHandlerKind × List Char :=
  let fullPrompt := renderFullPrompt options.prompt options.cursorPosition
  let handler := buildApiHandler hardcodedConfiguration
  let results : List CompletionResult :=
    match stream with
    | .ok chunks =>
      [{ text := extractCompletion (accumulate chunks), detail := some "AI Completion" }]
    | .err =>
      [{ text := [], detail := some "Error generating completion" }]
  (results, handler, fullPrompt)

/-- The value `getCompletion` returns to its caller. -/
def getCompletion (options : CompletionOptions) (stream : StreamOut) :
    List CompletionResult :=
  (getCompletionRun options stream).1

/-! ## Inline completion provider
(src/services/completion/AICompletionProvider.ts)

The provider's mutable fields form the session state; the host editor, the
clock, and the backend response are inputs supplied per call. -/

/-- The `currentInput` record compared against `this.lastInput`
(lines 48-57): position plus the exact line-prefix string. -/
structure Fingerprint where
  line : Nat
  character : Nat
  text : List Char
deriving DecidableEq

/-- One `InlineCompletionItem`: insert text plus the zero-width range at
the cursor (lines 109-120). -/
structure InlineItem where
  insertText : List Char
  rangeStart : Nat × Nat
  rangeEnd : Nat × Nat
deriving DecidableEq

/-- The provider's mutable fields (lines 8-12).  `lastCompetionList` keeps
the source's spelling. -/
structure SessionState where
  lastTriggerTime : Int
  lastInput : Option Fingerprint
  lastCompletionText : Option (List Char)
  lastCompetionList : Option (List InlineItem)
deriving DecidableEq

/-- Field values at provider construction: `lastTriggerTime = 0`, the rest
unset. -/
def initialState : SessionState where
  lastTriggerTime := 0
  lastInput := none
  lastCompletionText := none
  lastCompetionList := none

/-- Everything one invocation of `provideInlineCompletionItems` reads from
the host: the cancellation token at the entry check, whether the signal is
(also) raised during the backend round trip (the source never reads this —
it is recorded so that cancellation scenarios can be stated), the editor
multi-selection and selected-completion-info guards, the document as a list
of lines, the cursor, provider availability, the two `Date.now()` reads
(at the gate and when the response arrives), the configuration obtained
from `provider.getState()`, and the list the awaited `getCompletion` call
resolves to. -/
structure ProvideEnv where
  cancelled : Bool
  cancelledDuring : Bool
  multiSelections : Bool
  selInfoMismatch : Bool
  doc : List (List Char)
  line : Nat
  character : Nat
  providerAvailable : Bool
  gateNow : Int
  respNow : Int
  apiConfiguration : ApiConfiguration
  completions : List CompletionResult
deriving DecidableEq

/-- The `currentInput` fingerprint of a call (lines 41-52):
`linePrefix = currentLine.substring(0, position.character)`. -/
def fpOf (e : ProvideEnv) : Fingerprint where
  line := e.line
  character := e.character
  text := (e.doc.getD e.line []).take e.character

/-- `isInComment` (lines 182-194): `//` before the cursor on the current
line, or an unclosed `/*` in the text from the document start to the
cursor.  `document.getText(Range(0:0, position))` is the preceding full
lines joined with newlines followed by the current line prefix. -/
def isInComment (doc : List (List Char)) (line character : Nat) : Bool :=
  let pre := (doc.getD line []).take character
  if (findFrom ("//".toList) pre).isSome then true
  else
    let text := (((doc.take line).map (fun l => l ++ ['\n'])).flatten) ++ pre
    lastIdx ("/*".toList) text > lastIdx ("*/".toList) text

/-- The quote scan of `isInString` (lines 196-212), one step per character
of the line prefix.  State: `inString` and the latched `quote` character
(never reset by the source).  `escAll` is the loop-invariant condition
`linePrefix[linePrefix.length - 1] !== '\\'` negated: the source compares
the *last character of the whole prefix*, not the character before the
current quote. -/
def scanQuotes (escAll : Bool) (b : Bool) (q : Option Char) : List Char → Bool
  | [] => b
  | c :: rest =>
    if (c == '"' || c == '\'') && q.isNone then
      scanQuotes escAll true (some c) rest
    else if some c = q then
      scanQuotes escAll (if escAll then b else !b) q rest
    else
      scanQuotes escAll b q rest

/-- `isInString` (lines 196-212). -/
def isInString (lp : List Char) : Bool :=
  scanQuotes (lp.getLast? == some '\\') false none lp

/-- Modelled from the spec: the claim's own description of the string
guard, used only to compare against the source's `isInString`: a single
left-to-right scan in which each unescaped double or single quote toggles
string state, a closing quote counting as escaped exactly when the
character immediately preceding that quote in the prefix is a backslash. -/
def isInStringSpecScan (b : Bool) (prev : Option Char) : List Char → Bool
  | [] => b
  | c :: rest =>
    if (c == '"' || c == '\'') && !(b && prev == some '\\') then
      isInStringSpecScan (!b) (some c) rest
    else
      isInStringSpecScan b (some c) rest

/-- Modelled from the spec: entry point of the claim's scan. -/
def isInStringSpec (lp : List Char) : Bool :=
  isInStringSpecScan false none lp

/-- `shouldTriggerCompletion` (lines 133-180): rate limit first, then the
two contextual allowances, then the comment/string guards (all of whose
branches, like the fallback, deny). -/
def shouldTriggerCompletion (lastTriggerTime gateNow : Int)
    (doc : List (List Char)) (line character : Nat) (lp : List Char) : Bool :=
  if gateNow - lastTriggerTime < 1000 then false
  else
    let start := (max 0 ((line : Int) - 3)).toNat
    let prevLines := (List.range' start (line - start)).map
      (fun i => trimChars (doc.getD i []))
    if (trimChars lp).isEmpty && prevLines.any (fun l => !l.isEmpty) then true
    else if !(trimChars lp).isEmpty then true
    else if isInComment doc line character then false
    else if isInString lp then false
    else false

/-- The contextual-allowance condition of the gate (used to state which
inputs are ALLOW-eligible): non-blank prefix, or blank prefix with at least
one non-blank line among the previous three. -/
def contextEligible (doc : List (List Char)) (line : Nat) (lp : List Char) : Bool :=
  let start := (max 0 ((line : Int) - 3)).toNat
  let prevLines := (List.range' start (line - start)).map
    (fun i => trimChars (doc.getD i []))
  ((trimChars lp).isEmpty && prevLines.any (fun l => !l.isEmpty))
    || !(trimChars lp).isEmpty

/-- `getContextRange` (lines 214-221): start line as computed by
`Math.max(0, position.line - 3)` over JavaScript numbers. -/
def getContextRangeStart (line : Nat) : Int :=
  max 0 ((line : Int) - 3)

/-- `getContextRange`: the range from `(startLine, 0)` to the cursor (the
computed `endLine` is unused by the source). -/
def getContextRange (line character : Nat) : (Nat × Nat) × (Nat × Nat) :=
  (((getContextRangeStart line).toNat, 0), (line, character))

/-- Modelled from the spec: the Text Source operation
`getText(range) → string` (spec section 6) — the host editor's
implementation is not part of this repository.  Lines of the range joined
with newlines, the first cut from the start character, the last cut at the
end character. -/
def getTextInRange (doc : List (List Char)) (r : (Nat × Nat) × (Nat × Nat)) :
    List Char :=
  let sL := r.1.1
  let sC := r.1.2
  let eL := r.2.1
  let eC := r.2.2
  if sL = eL then ((doc.getD sL []).take eC).drop sC
  else
    List.intercalate (['\n'])
      (((doc.getD sL []).drop sC)
        :: (((List.range' (sL + 1) (eL - (sL + 1))).map (fun i => doc.getD i []))
            ++ [(doc.getD eL []).take eC]))

/-- The `contextText` sent as the prompt (lines 76-77). -/
def contextWindow (doc : List (List Char)) (line character : Nat) : List Char :=
  getTextInRange doc (getContextRange line character)

/-- The duplicate-completion guard at line 66:
`this.lastCompletionText && currentLine.trim() === lastCompletionText.trim()`
(JavaScript truthiness: an empty `lastCompletionText` disables the guard). -/
def lineMatchesLast (s : SessionState) (fullLine : List Char) : Bool :=
  match s.lastCompletionText with
  | none => false
  | some t => !t.isEmpty && (trimChars fullLine == trimChars t)

/-- The item built from one `CompletionResult` (lines 106-121): insert text
plus the zero-width range at the cursor. -/
def itemOf (e : ProvideEnv) (c : CompletionResult) : InlineItem where
  insertText := c.text
  rangeStart := (e.line, e.character)
  rangeEnd := (e.line, e.character)

/-- The argument object of the `getCompletion` call (lines 90-96). -/
def optionsOf (e : ProvideEnv) : CompletionOptions where
  prompt := contextWindow e.doc e.line e.character
  maxTokens := 50
  temperature := (2, 10)
  cursorPosition := e.character
  configuration := e.apiConfiguration

/-- `provideInlineCompletionItems` (lines 18-131).  Returns the new session
state, the value returned to the host (`none` = `undefined`, "no
suggestion"), and — when the backend call was issued — the options it was
issued with (`none` = no backend call). -/
def provide (s : SessionState) (e : ProvideEnv) :
    SessionState × Option (List InlineItem) × Option CompletionOptions :=
  if e.cancelled then (s, none, none)
  else if e.multiSelections then (s, none, none)
  else if e.selInfoMismatch then (s, none, none)
  else
    let current := fpOf e
    if s.lastInput = some current then (s, s.lastCompetionList, none)
    else
      let s1 := { s with lastInput := some current }
      if lineMatchesLast s1 (e.doc.getD e.line []) then (s1, s1.lastCompetionList, none)
      else if shouldTriggerCompletion s.lastTriggerTime e.gateNow e.doc e.line
          e.character current.text = false then (s1, none, none)
      else if e.providerAvailable = false then (s1, none, none)
      else
        match e.completions with
        | [] => (s1, none, some (optionsOf e))
        | c :: cs =>
          let items := (c :: cs).map (itemOf e)
          ({ s1 with
              lastTriggerTime := e.respNow
              lastCompletionText := some (cs.getLastD c).text
              lastCompetionList := some items },
            some items, some (optionsOf e))

/-- A session: the state after a sequence of calls starting from the
freshly constructed provider. -/
def runSession (envs : List ProvideEnv) : SessionState :=
  envs.foldl (fun s e => (provide s e).1) initialState

/-- The first quote character of a line prefix and the characters after it
(used to state the exact behaviour of `isInString`). -/
def firstQuote : List Char → Option (Char × List Char)
  | [] => none
  | c :: rest =>
    if c == '"' || c == '\'' then some (c, rest) else firstQuote rest

/-! Concrete call environments used to instantiate the theorems below: a
one-line document `"abc"` with the cursor at the end of the line, clock far
past the rate-limit window, all host-side guards passing.  In `envHit` the
backend resolves to one completion `"xyz"`; `envZero` resolves to zero
completions; `envErr` resolves to exactly the list the modelled
`getCompletion` returns when the backend errors; `envCancel` has the
cancellation token already raised at entry.  `envHit.cancelledDuring` is
set: the scenario in which the host raises the signal while the round trip
is in flight. -/

def envHit : ProvideEnv where
  cancelled := false
  cancelledDuring := true
  multiSelections := false
  selInfoMismatch := false
  doc := [['a', 'b', 'c']]
  line := 0
  character := 3
  providerAvailable := true
  gateNow := 5000
  respNow := 5001
  apiConfiguration := hardcodedConfiguration
  completions := [{ text := ['x', 'y', 'z'], detail := some "AI Completion" }]

def envZero : ProvideEnv := { envHit with completions := [] }

def envErr : ProvideEnv :=
  { envHit with completions := [{ text := [], detail := some "Error generating completion" }] }

def envCancel : ProvideEnv := { envHit with cancelled := true }

/-- `envHit` arriving only 500 ms after `lastTriggerTime = 0`: inside the
rate-limit window. -/
def envRate : ProvideEnv := { envHit with gateNow := 500 }

/-! ## Helper lemmas -/

theorem isPrefixOf_self_append (pat rest : List Char) :
    pat.isPrefixOf (pat ++ rest) = true := by
  induction pat with
  | nil => cases rest <;> rfl
  | cons c cs ih => simp [List.isPrefixOf, ih]

theorem findFrom_append (pat rest : List Char) :
    ∀ a : List Char,
      (∀ i, i < a.length → pat.isPrefixOf ((a ++ rest).drop i) = false) →
      pat.isPrefixOf rest = true →
      findFrom pat (a ++ rest) = some a.length := by
  intro a
  induction a with
  | nil =>
    intro _ hp
    cases rest with
    | nil => simp [findFrom, hp]
    | cons c cs => simp [findFrom, hp]
  | cons x a ih =>
    intro h hp
    have h0 : pat.isPrefixOf (x :: (a ++ rest)) = false :=
      h 0 (Nat.succ_pos _)
    have hrec := ih
      (fun i hi => h (i + 1) (by simp only [List.length_cons]; omega)) hp
    simp [findFrom, h0, hrec]

theorem findFrom_none (pat : List Char) :
    ∀ s : List Char,
      (∀ i, i ≤ s.length → pat.isPrefixOf (s.drop i) = false) →
      findFrom pat s = none := by
  intro s
  induction s with
  | nil =>
    intro h
    have h0 : pat.isPrefixOf ([] : List Char) = false := h 0 (Nat.le_refl 0)
    simp [findFrom, h0]
  | cons c cs ih =>
    intro h
    have h0 : pat.isPrefixOf (c :: cs) = false := h 0 (by omega)
    have hrec := ih
      (fun i hi => h (i + 1) (by simp only [List.length_cons]; omega))
    simp [findFrom, h0, hrec]

/-! ## Claim C4: extraction correctness -/

/-- C4: for every accumulated response string, the extracted completion is
the substring between the first `<COMPLETION>` and the first subsequent
`</COMPLETION>`: writing the response as `a ++ openTagL ++ b ++ closeTagL
++ c` with no opening tag starting inside `a` and no closing tag starting
inside `b`, extraction yields exactly `b`; the worked example
`"noise <COMPLETION>foo(bar)</COMPLETION> trailing"` yields `"foo(bar)"`;
and a string containing no opening tag yields the empty string rather than
an error. -/
theorem c4_extraction :
    (∀ s a b c : List Char,
        s = a ++ (openTagL ++ (b ++ (closeTagL ++ c))) →
        (∀ i, i < a.length → openTagL.isPrefixOf (s.drop i) = false) →
        (∀ j, j < b.length →
          closeTagL.isPrefixOf ((b ++ (closeTagL ++ c)).drop j) = false) →
        extractCompletion s = b)
    ∧ extractCompletion ("noise <COMPLETION>foo(bar)</COMPLETION> trailing".toList)
        = "foo(bar)".toList
    ∧ (∀ s : List Char,
        (∀ i, i ≤ s.length → openTagL.isPrefixOf (s.drop i) = false) →
        extractCompletion s = []) := by
  refine ⟨?_, by decide, ?_⟩
  · intro s a b c hs ha hb
    subst hs
    have h1 : findFrom openTagL (a ++ (openTagL ++ (b ++ (closeTagL ++ c))))
        = some a.length :=
      findFrom_append openTagL _ a ha (isPrefixOf_self_append _ _)
    have hdrop : (a ++ (openTagL ++ (b ++ (closeTagL ++ c)))).drop
        (a.length + openTagL.length) = b ++ (closeTagL ++ c) := by
      rw [← List.append_assoc a openTagL, ← List.length_append]
      exact List.drop_left _ _
    have h2 : findFrom closeTagL (b ++ (closeTagL ++ c)) = some b.length :=
      findFrom_append closeTagL _ b hb (isPrefixOf_self_append _ _)
    simp only [extractCompletion, h1, hdrop, h2]
    exact List.take_left _ _
  · intro s h
    simp [extractCompletion, findFrom_none openTagL s h]

/-- C4 witness: the theorem applied to the worked example and to a
delimiter-free response. -/
theorem c4_witness :
    extractCompletion ("noise <COMPLETION>foo(bar)</COMPLETION> trailing".toList)
        = "foo(bar)".toList
    ∧ extractCompletion ("no delimiter tags here".toList) = [] := by
  constructor
  · exact c4_extraction.1 _ ("noise ".toList) ("foo(bar)".toList)
      (" trailing".toList) (by decide) (by decide) (by decide)
  · exact c4_extraction.2.2 _ (by decide)

/-! ## Claim C3: backend failure isolation -/

/-- C3: every call to `getCompletion` returns exactly one
`CompletionResult` (the function is total over every stream outcome, so no
exception reaches the caller), and when an error is raised while invoking
the backend or draining its chunk stream the single result has empty text
and the fixed error detail. -/
theorem c3_failure_isolation :
    (∀ (o : CompletionOptions) (st : StreamOut), (getCompletion o st).length = 1)
    ∧ (∀ o : CompletionOptions,
        getCompletion o StreamOut.err
          = [{ text := [], detail := some "Error generating completion" }]) := by
  constructor
  · intro o st
    cases st <;> rfl
  · intro o
    rfl

/-! ## Claim C10: backend configuration noninterference -/

/-- C10: `getCompletion` behaves identically for every pair of
caller-supplied configurations (the `configuration` field is never read);
the handler is always built from the hard-coded configuration, whose
provider is `"anthropic"`, so `buildApiHandler` always selects the
Anthropic handler regardless of the caller's provider selection. -/
theorem c10_config_noninterference :
    (∀ (p : List Char) (mt : Nat) (t : Nat × Nat) (cp : Nat)
        (c1 c2 : ApiConfiguration) (st : StreamOut),
        getCompletionRun ⟨p, mt, t, cp, c1⟩ st = getCompletionRun ⟨p, mt, t, cp, c2⟩ st)
    ∧ (∀ (o : CompletionOptions) (st : StreamOut),
        (getCompletionRun o st).2.1 = ApiHandlerKind.anthropic)
    ∧ hardcodedConfiguration.apiProvider = "anthropic" := by
  refine ⟨fun p mt t cp c1 c2 st => rfl, fun o st => rfl, rfl⟩

/-! ## Claim C9: prompt rendering -/

/-- C9: the rendered request prompt is a pure function of the context
string and cursor offset, equal to the fixed hole-filler template, then the
query block opening, then a prefix text, then the sentinel `{{FILL_HERE}}`
verbatim, then a suffix text, then the closing instruction ending in the
opening completion delimiter — where prefix and suffix partition the
context string at the rendering split. -/
theorem c9_prompt_rendering (prompt : List Char) (cursor : Nat) :
    ∃ pre suf : List Char,
      pre ++ suf = prompt
      ∧ renderFullPrompt prompt cursor
        = SYSTEM_MSG.toList ++ queryOpenStr.toList ++ pre ++ sentinelStr.toList
            ++ suf ++ closingStr.toList := by
  refine ⟨prompt.take (lastIdx (['\n']) prompt + 1).toNat
      ++ (prompt.drop (lastIdx (['\n']) prompt + 1).toNat).take cursor,
    (prompt.drop (lastIdx (['\n']) prompt + 1).toNat).drop cursor, ?_, rfl⟩
  rw [List.append_assoc, List.take_append_drop, List.take_append_drop]

/-! ## Claim C6: string-guard scan semantics -/

theorem scanQuotes_latched (escAll : Bool) (c : Char) :
    ∀ (rest : List Char) (b : Bool),
      scanQuotes escAll b (some c) rest
        = if escAll then b
          else if rest.count c % 2 = 0 then b else !b := by
  intro rest
  induction rest with
  | nil => intro b; simp [scanQuotes]
  | cons d rest ih =>
    intro b
    by_cases hd : d = c
    · subst hd
      rw [show scanQuotes escAll b (some d) (d :: rest)
          = scanQuotes escAll (if escAll then b else !b) (some d) rest from by
        simp [scanQuotes]]
      rw [ih, List.count_cons_self]
      cases escAll
      · rcases Nat.even_or_odd (rest.count d) with he | ho
        · have h0 : rest.count d % 2 = 0 := Nat.even_iff.mp he
          have h1 : ¬((rest.count d + 1) % 2 = 0) := by omega
          simp [h0, h1]
        · have h0 : rest.count d % 2 = 1 := Nat.odd_iff.mp ho
          have h1 : (rest.count d + 1) % 2 = 0 := by omega
          have h2 : ¬(rest.count d % 2 = 0) := by omega
          simp [h1, h2]
      · simp
    · have hcount : (d :: rest).count c = rest.count c :=
        List.count_cons_of_ne (fun hdc => hd (by simpa using hdc.symm)) rest
      rw [show scanQuotes escAll b (some c) (d :: rest)
          = scanQuotes escAll b (some c) rest from by
        have : (some d = some c) = False := by simp [hd]
        simp [scanQuotes, this]]
      rw [ih, hcount]

theorem scanQuotes_start (escAll : Bool) :
    ∀ lp : List Char,
      scanQuotes escAll false none lp
        = match firstQuote lp with
          | none => false
          | some (c, rest) => scanQuotes escAll true (some c) rest := by
  intro lp
  induction lp with
  | nil => rfl
  | cons d rest ih =>
    by_cases hd : (d == '"' || d == '\'') = true
    · simp [scanQuotes, firstQuote, hd]
    · simp only [Bool.not_eq_true] at hd
      simp [scanQuotes, firstQuote, hd, ih]

/-- C6 counterexample: on the line prefix `"` `"` `\` the source's
`isInString` reports `true` (the global escape check sees the trailing
backslash and suppresses the toggle of the second quote), while the scan
the claim describes — the second quote is preceded by a quote, not a
backslash, so it closes the string — reports `false`. -/
theorem c6_counterexample :
    isInString ['"', '"', '\\'] = true
    ∧ isInStringSpec ['"', '"', '\\'] = false := by
  decide

/-- C6 amended: `isInString` returns `true` iff the prefix contains a quote
character and either the last character of the *whole prefix* is a
backslash (in which case every subsequent toggle is suppressed), or the
number of later occurrences of the *first-seen* quote character is even;
quotes of the other kind never toggle, and the escape check inspects the
final character of the prefix rather than the character preceding the
quote. -/
theorem c6_amended (lp : List Char) :
    isInString lp
      = match firstQuote lp with
        | none => false
        | some (c, rest) =>
          (lp.getLast? == some '\\') || decide (rest.count c % 2 = 0) := by
  unfold isInString
  rw [scanQuotes_start]
  cases hfq : firstQuote lp with
  | none => rfl
  | some p =>
    obtain ⟨c, rest⟩ := p
    show scanQuotes (lp.getLast? == some '\\') true (some c) rest
      = (lp.getLast? == some '\\' || decide (rest.count c % 2 = 0))
    rw [scanQuotes_latched]
    cases hl : (lp.getLast? == some '\\')
    · rcases Nat.even_or_odd (rest.count c) with h | h
      · simp [Nat.even_iff.mp h]
      · have h0 : rest.count c % 2 = 1 := Nat.odd_iff.mp h
        have h1 : ¬(rest.count c % 2 = 0) := by omega
        simp [h1]
    · simp

/-! ## Gate and provider branch lemmas -/

theorem gate_chain (a b c d : Bool) :
    (if a then true else if b then true else if c then false
      else if d then false else false) = (a || b) := by
  cases a <;> cases b <;> cases c <;> cases d <;> simp

theorem shouldTrigger_eq (lt now : Int) (doc : List (List Char))
    (line ch : Nat) (lp : List Char) :
    shouldTriggerCompletion lt now doc line ch lp
      = (decide (1000 ≤ now - lt) && contextEligible doc line lp) := by
  unfold shouldTriggerCompletion contextEligible
  by_cases h : now - lt < 1000
  · have h2 : ¬(1000 ≤ now - lt) := by omega
    simp [h, h2]
  · have h2 : (1000 : Int) ≤ now - lt := by omega
    rw [if_neg h, gate_chain]
    simp [h2]

theorem lineMatchesLast_setInput (s : SessionState) (fp : Option Fingerprint)
    (l : List Char) :
    lineMatchesLast { s with lastInput := fp } l = lineMatchesLast s l := rfl

theorem provide_lastInput (s : SessionState) (e : ProvideEnv)
    (h1 : e.cancelled = false) (h2 : e.multiSelections = false)
    (h3 : e.selInfoMismatch = false) :
    (provide s e).1.lastInput = some (fpOf e) := by
  simp only [provide, h1, h2, h3, Bool.false_eq_true, if_false]
  split
  · next hdup => exact hdup
  · split
    · rfl
    · split
      · rfl
      · split
        · rfl
        · split
          · rfl
          · rfl

theorem provide_batch_cases (s : SessionState) (e : ProvideEnv) :
    ((provide s e).1.lastCompetionList = s.lastCompetionList
      ∧ (provide s e).1.lastCompletionText = s.lastCompletionText)
    ∨ ∃ c cs, e.completions = c :: cs
        ∧ (provide s e).1.lastCompetionList = some ((c :: cs).map (itemOf e)) := by
  simp only [provide]
  split
  · exact Or.inl ⟨rfl, rfl⟩
  · split
    · exact Or.inl ⟨rfl, rfl⟩
    · split
      · exact Or.inl ⟨rfl, rfl⟩
      · split
        · exact Or.inl ⟨rfl, rfl⟩
        · split
          · exact Or.inl ⟨rfl, rfl⟩
          · split
            · exact Or.inl ⟨rfl, rfl⟩
            · split
              · exact Or.inl ⟨rfl, rfl⟩
              · split
                · exact Or.inl ⟨rfl, rfl⟩
                · next c cs heq => exact Or.inr ⟨c, cs, heq, rfl⟩

theorem runSession_aux :
    ∀ (envs : List ProvideEnv) (s : SessionState),
      (∀ l, s.lastCompetionList = some l → l ≠ []) →
      ∀ l, (envs.foldl (fun s e => (provide s e).1) s).lastCompetionList = some l →
        l ≠ [] := by
  intro envs
  induction envs with
  | nil => intro s hs; exact hs
  | cons e es ih =>
    intro s hs
    refine ih _ ?_
    intro l hl
    rcases provide_batch_cases s e with ⟨h1, _⟩ | ⟨c, cs, _, h2⟩
    · exact hs l (h1 ▸ hl)
    · rw [h2] at hl
      have := Option.some.inj hl
      subst this
      simp

theorem intercalate_single (sep x : List Char) : List.intercalate sep [x] = x := by
  simp [List.intercalate]

/-! ## Claim C5: rate limiting -/

/-- C5: any trigger arriving less than 1000 ms after `lastTriggerTime` is
denied by the gate; at the provider level such a call (with the host guards
passing and neither duplicate-suppression branch taken) returns no
suggestion, issues no backend call and supplies no cached result; and any
ALLOW-eligible input (`contextEligible`) arriving at least 1000 ms after
`lastTriggerTime` passes the gate. -/
theorem c5_rate_limit :
    (∀ (lt now : Int) (doc : List (List Char)) (line ch : Nat) (lp : List Char),
        now - lt < 1000 → shouldTriggerCompletion lt now doc line ch lp = false)
    ∧ (∀ (s : SessionState) (e : ProvideEnv),
        e.cancelled = false → e.multiSelections = false → e.selInfoMismatch = false →
        s.lastInput ≠ some (fpOf e) →
        lineMatchesLast s (e.doc.getD e.line []) = false →
        e.gateNow - s.lastTriggerTime < 1000 →
        provide s e = ({ s with lastInput := some (fpOf e) }, none, none))
    ∧ (∀ (lt now : Int) (doc : List (List Char)) (line ch : Nat) (lp : List Char),
        1000 ≤ now - lt → contextEligible doc line lp = true →
        shouldTriggerCompletion lt now doc line ch lp = true) := by
  have part1 : ∀ (lt now : Int) (doc : List (List Char)) (line ch : Nat)
      (lp : List Char), now - lt < 1000 →
      shouldTriggerCompletion lt now doc line ch lp = false := by
    intro lt now doc line ch lp h
    have h2 : ¬(1000 ≤ now - lt) := by omega
    simp [shouldTrigger_eq, h2]
  refine ⟨part1, ?_, ?_⟩
  · intro s e h1 h2 h3 h4 h5 h6
    have hg := part1 s.lastTriggerTime e.gateNow e.doc e.line e.character
      (fpOf e).text h6
    simp only [provide, h1, h2, h3, Bool.false_eq_true, if_false]
    rw [if_neg h4]
    simp only [lineMatchesLast_setInput, h5, Bool.false_eq_true, if_false]
    rw [if_pos hg]
  · intro lt now doc line ch lp h he
    simp [shouldTrigger_eq, h, he]

/-- C5 witness: the rate-limited gate call, the rate-limited provider call
on `envRate`, and the same ALLOW-eligible input passing 5000 ms after the
last trigger. -/
theorem c5_witness :
    shouldTriggerCompletion 0 500 ([['a', 'b', 'c']]) 0 3 (['a', 'b', 'c']) = false
    ∧ provide initialState envRate
        = ({ initialState with lastInput := some (fpOf envRate) }, none, none)
    ∧ shouldTriggerCompletion 0 5000 ([['a', 'b', 'c']]) 0 3 (['a', 'b', 'c']) = true :=
  ⟨c5_rate_limit.1 0 500 _ 0 3 _ (by decide),
   c5_rate_limit.2.1 initialState envRate rfl rfl rfl (by decide) (by decide) (by decide),
   c5_rate_limit.2.2 0 5000 _ 0 3 _ (by decide) (by decide)⟩

/-! ## Claim C1: idempotent replay of a duplicate fingerprint -/

/-- C1: for every session state and input fingerprint, if
`provideInlineCompletionItems` runs twice in a row on the same fingerprint
with no intervening state change (both calls passing the host-side entry
guards), the second call issues no backend call, leaves the state
untouched, and returns exactly the cached `lastCompetionList`. -/
theorem c1_duplicate_replay (s : SessionState) (e e2 : ProvideEnv)
    (h1 : e.cancelled = false) (h2 : e.multiSelections = false)
    (h3 : e.selInfoMismatch = false)
    (g1 : e2.cancelled = false) (g2 : e2.multiSelections = false)
    (g3 : e2.selInfoMismatch = false)
    (hfp : fpOf e2 = fpOf e) :
    provide (provide s e).1 e2
      = ((provide s e).1, (provide s e).1.lastCompetionList, none) := by
  have hdup : (provide s e).1.lastInput = some (fpOf e2) := by
    rw [hfp]; exact provide_lastInput s e h1 h2 h3
  generalize hg : (provide s e).1 = s1 at hdup ⊢
  simp only [provide, g1, g2, g3, Bool.false_eq_true, if_false]
  rw [if_pos hdup]

/-- C1 witness: the successful call on `envHit` replayed with the identical
environment. -/
theorem c1_witness :
    provide (provide initialState envHit).1 envHit
      = ((provide initialState envHit).1,
          (provide initialState envHit).1.lastCompetionList, none) :=
  c1_duplicate_replay initialState envHit envHit rfl rfl rfl rfl rfl rfl rfl

/-! ## Claim C2: cache-batch invariant -/

/-- C2 counterexample: when the backend errors, `getCompletion` returns the
one-element list with empty text; feeding that list to the provider from
the initial state yields a reachable state whose `lastCompetionList` is
non-empty even though the backend call returned no completion with
non-empty text — refuting the claim's "non-empty only if at least one
non-empty completion". -/
theorem c2_counterexample :
    getCompletion (optionsOf envHit) StreamOut.err
        = [{ text := [], detail := some "Error generating completion" }]
    ∧ envErr.completions = getCompletion (optionsOf envHit) StreamOut.err
    ∧ (provide initialState envErr).1.lastCompetionList
        = some [{ insertText := [], rangeStart := (0, 3), rangeEnd := (0, 3) }]
    ∧ envErr.completions.all (fun c => c.text.isEmpty) = true := by
  decide

/-- C2 amended: a backend call yielding zero results leaves
`lastCompetionList` and `lastCompletionText` unchanged; `lastCompetionList`
changes only to the item list built from a non-empty backend response
(whose texts may, however, be empty); hence in every reachable session
state a present `lastCompetionList` is non-empty. -/
theorem c2_amended_invariant :
    (∀ (s : SessionState) (e : ProvideEnv), e.completions = [] →
        (provide s e).1.lastCompetionList = s.lastCompetionList
        ∧ (provide s e).1.lastCompletionText = s.lastCompletionText)
    ∧ (∀ (s : SessionState) (e : ProvideEnv),
        (provide s e).1.lastCompetionList ≠ s.lastCompetionList →
        ∃ c cs, e.completions = c :: cs
          ∧ (provide s e).1.lastCompetionList = some ((c :: cs).map (itemOf e)))
    ∧ (∀ (envs : List ProvideEnv) (l : List InlineItem),
        (runSession envs).lastCompetionList = some l → l ≠ []) := by
  refine ⟨?_, ?_, ?_⟩
  · intro s e he
    rcases provide_batch_cases s e with h | ⟨c, cs, hc, _⟩
    · exact h
    · rw [he] at hc
      exact List.noConfusion hc
  · intro s e hne
    rcases provide_batch_cases s e with ⟨h1, _⟩ | h
    · exact absurd h1 hne
    · exact h
  · intro envs l
    exact runSession_aux envs initialState (fun l h => Option.noConfusion h) l

/-- C2 witness: the amended theorem applied to a zero-result call from the
initial state and to the one-call session on `envHit`. -/
theorem c2_witness :
    (provide initialState envZero).1.lastCompetionList
        = initialState.lastCompetionList
    ∧ ([{ insertText := ['x', 'y', 'z'], rangeStart := (0, 3), rangeEnd := (0, 3) }]
        : List InlineItem) ≠ [] :=
  ⟨(c2_amended_invariant.1 initialState envZero rfl).1,
   c2_amended_invariant.2.2 [envHit] _ (by decide)⟩

/-! ## Claim C7: cancellation atomicity -/

/-- C7 counterexample: in `envHit` the cancellation signal is raised during
the backend round trip (`cancelledDuring`, which the source never reads);
the call nevertheless returns the new batch and mutates the session state,
refuting "returns no suggestion and performs no mutation when cancellation
is raised before or during the round trip". -/
theorem c7_counterexample :
    envHit.cancelledDuring = true
    ∧ initialState.lastCompetionList = none
    ∧ (provide initialState envHit).2.1
        = some [{ insertText := ['x', 'y', 'z'], rangeStart := (0, 3), rangeEnd := (0, 3) }]
    ∧ (provide initialState envHit).1.lastCompetionList
        = some [{ insertText := ['x', 'y', 'z'], rangeStart := (0, 3), rangeEnd := (0, 3) }] := by
  decide

/-- C7 amended: only a cancellation signal already raised at the entry
check is honoured — such a call returns no suggestion, issues no backend
call, and leaves the session state untouched.  A signal raised after that
point (including during the round trip) is never consulted. -/
theorem c7_amended (s : SessionState) (e : ProvideEnv) (h : e.cancelled = true) :
    provide s e = (s, none, none) := by
  simp [provide, h]

/-- C7 witness: the amended theorem on the entry-cancelled environment. -/
theorem c7_witness : provide initialState envCancel = (initialState, none, none) :=
  c7_amended initialState envCancel rfl

/-! ## Claim C8: context-window bounds and safety -/

/-- C8: the context range start is never negative and equals
`max(0, line - 3)`; the extracted window is exactly the full lines from
`max(0, line - 3)` up to `line - 1` followed by the current line cut at the
cursor character, joined with newlines; at line 0 the window is only the
partial first line. -/
theorem c8_context_window (doc : List (List Char)) (line character : Nat) :
    0 ≤ getContextRangeStart line
    ∧ (getContextRangeStart line).toNat = line - 3
    ∧ contextWindow doc line character
        = List.intercalate (['\n'])
            (((List.range' (line - 3) (line - (line - 3))).map (fun i => doc.getD i []))
              ++ [(doc.getD line []).take character])
    ∧ contextWindow doc 0 character = (doc.getD 0 []).take character := by
  have hst : ∀ n : Nat, (getContextRangeStart n).toNat = n - 3 := by
    intro n
    unfold getContextRangeStart
    omega
  have hwin : ∀ ln : Nat, contextWindow doc ln character
      = List.intercalate (['\n'])
          (((List.range' (ln - 3) (ln - (ln - 3))).map (fun i => doc.getD i []))
            ++ [(doc.getD ln []).take character]) := by
    intro ln
    unfold contextWindow getTextInRange getContextRange
    rw [hst ln]
    by_cases h0 : ln = 0
    · subst h0
      simp [intercalate_single]
    · have hne : ln - 3 ≠ ln := by omega
      rw [if_neg hne]
      rw [show ln - (ln - 3) = (ln - (ln - 3) - 1) + 1 from by omega,
        List.range'_succ, List.map_cons, List.cons_append,
        show ln - (ln - 3 + 1) = ln - (ln - 3) - 1 from by omega]
      simp
  exact ⟨le_max_left _ _, hst line, hwin line,
    by rw [hwin 0]; simp [intercalate_single]⟩

end HuohuaExt
